import Mathlib

/-!
Verification of the person-removal mask-selection pipeline in
`past_images/main.py` ("Who Controls the Present" installation).

The pipeline's own decision logic — the two-tier mask selector
(`select_best_mask`), the face-matching policy (`find_matching_face`),
the per-image batch orchestration (`process_images`), and the inpainting
output-file resolution (`inpaint_with_lama`) — is embedded below as
executable Lean definitions.  External capabilities (SAM segmentation,
face encodings, the LaMa subprocess, the file system) appear as explicit
parameters: a mask's raster is a pixel function, face encodings are
abstracted into a distance function indexed by face positions, the
subprocess result is an exit code plus a file-existence predicate.
-/

namespace PastImages

/-- A binary mask raster: height, width, and the pixel value at (row, col).
Mirrors the grayscale PNG loaded with `cv2.imread(..., IMREAD_GRAYSCALE)`:
a pixel is mask-positive when its value is nonzero. -/
structure Raster where
  h : Nat
  w : Nat
  pix : Nat → Nat → Nat

/-- One SAM mask candidate, as consumed by `select_best_mask`: its reported
pixel `area` and its saved raster (`none` models a raster file that
`cv2.imread` fails to load, which the source skips). -/
structure MaskData where
  area : Nat
  raster : Option Raster

/-- The matched face's bounding box, `{'top', 'right', 'bottom', 'left'}`
in pixel coordinates, as produced by `find_matching_face`. -/
structure FaceBox where
  top : Int
  right : Int
  bottom : Int
  left : Int
deriving DecidableEq

/-- `face_area = (face_right - face_left) * (face_bottom - face_top)`. -/
def faceArea (f : FaceBox) : Int :=
  (f.right - f.left) * (f.bottom - f.top)

/-- Number of mask-positive pixels of row `y` with column in `[cl, cr)`. -/
def countRow (m : Raster) (y : Nat) (cl cr : Int) : Nat :=
  ((List.range m.w).filter
    (fun (x : Nat) => decide (cl ≤ (x : Int)) && decide ((x : Int) < cr)
      && decide (0 < m.pix y x))).length

/-- Number of mask-positive pixels in the pixel rectangle with rows in
`[ct, cb)` and columns in `[cl, cr)`; this is
`np.count_nonzero(mask_image[crop_top:crop_bottom, crop_left:crop_right])`. -/
def cropCount (m : Raster) (ct cb cl cr : Int) : Nat :=
  ((List.range m.h).map
    (fun (y : Nat) => if ct ≤ (y : Int) ∧ (y : Int) < cb then countRow m y cl cr else 0)).sum

/-- The number of mask-positive pixels of raster `m` inside the face
bounding box clamped to the raster's dimensions: the source's
`overlap_pixels = np.count_nonzero(mask_image[crop_top:crop_bottom,
crop_left:crop_right])` with `crop_top = max(0, face_top)`,
`crop_bottom = min(h, face_bottom)`, `crop_left = max(0, face_left)`,
`crop_right = min(w, face_right)`. -/
def overlapPixels (face : FaceBox) (m : Raster) : Nat :=
  cropCount m (max 0 face.top) (min (m.h : Int) face.bottom)
    (max 0 face.left) (min (m.w : Int) face.right)

/-- The overlap percentage of a mask raster with the face box:
`(overlap_pixels / face_area) * 100 if face_area > 0 else 0`. -/
def overlapPercentage (face : FaceBox) (m : Raster) : ℚ :=
  if 0 < faceArea face then
    ((overlapPixels face m : ℚ) / ((faceArea face : Int) : ℚ)) * 100
  else 0

/-- Tier-1 test for one candidate, mirroring the loop body of
`select_best_mask`: skip when the raster is missing (`cv2.imread` returned
`None`) or the clamped crop rectangle is empty (`continue`); otherwise
count overlap pixels, compute the overlap percentage, and keep the
candidate only when the percentage is at least 10.  Returns
`(overlap_pixels, overlap_percentage)` for a kept candidate. -/
def tier1Test (face : FaceBox) (md : MaskData) : Option (Nat × ℚ) :=
  match md.raster with
  | none => none
  | some m =>
    if min (m.h : Int) face.bottom ≤ max 0 face.top ∨
        min (m.w : Int) face.right ≤ max 0 face.left then none
    else if 10 ≤ overlapPercentage face m then
      some (overlapPixels face m, overlapPercentage face m)
    else none

/-- A candidate qualifies at Tier 1 when the loop of `select_best_mask`
appends it to `overlapping_masks`. -/
def tier1Qualifies (face : FaceBox) (md : MaskData) : Bool :=
  (tier1Test face md).isSome

/-- A mask candidate "qualifies at Tier 1" in the claims' language: its
raster loads and its overlap percentage with the face box is at least 10
(proved below to coincide with `tier1Qualifies`). -/
def qualifiesT1 (face : FaceBox) (md : MaskData) : Prop :=
  ∃ m, md.raster = some m ∧ 10 ≤ overlapPercentage face m

/-- Tier-2 test: is the single pixel at the face box's center
`((left+right)//2, (top+bottom)//2)` inside the raster and mask-positive?
Python's `//` is floor division, hence `Int.fdiv`. -/
def centerHit (face : FaceBox) (md : MaskData) : Bool :=
  match md.raster with
  | none => false
  | some m =>
    let cx := (face.left + face.right).fdiv 2
    let cy := (face.top + face.bottom).fdiv 2
    decide (0 ≤ cy ∧ cy < (m.h : Int) ∧ 0 ≤ cx ∧ cx < (m.w : Int))
      && decide (0 < m.pix cy.toNat cx.toNat)

/-- One record of the selector's `overlapping_masks` list:
`{'index', 'area', 'overlap_pixels', 'overlap_percentage'}`. -/
structure SelEntry where
  index : Nat
  area : Nat
  overlap_pixels : Nat
  overlap_percentage : ℚ
deriving DecidableEq

/-- The `overlapping_masks` list built by iterating `enumerate(masks)`
starting at index `i`, keeping each candidate on which the per-candidate
test `g` fires. -/
def tierList (g : MaskData → Option (Nat × ℚ)) : Nat → List MaskData → List SelEntry
  | _, [] => []
  | i, md :: rest =>
    match g md with
    | some q => ⟨i, md.area, q.1, q.2⟩ :: tierList g (i + 1) rest
    | none => tierList g (i + 1) rest

/-- Tier-1 `overlapping_masks`: candidates with overlap percentage ≥ 10. -/
def tier1List (face : FaceBox) (i : Nat) (masks : List MaskData) : List SelEntry :=
  tierList (tier1Test face) i masks

/-- Tier-2 fallback `overlapping_masks`: center-point hits, recorded with
`overlap_pixels = 1` and `overlap_percentage = 0` exactly as in the source. -/
def tier2List (face : FaceBox) (i : Nat) (masks : List MaskData) : List SelEntry :=
  tierList (fun md => if centerHit face md then some (1, 0) else none) i masks

/-- Python's `max(entries, key=lambda x: x['area'])` as a left fold over the
tail with the head as the initial best: the current best is replaced only
by a strictly larger area, so the first entry of a tied maximal area wins. -/
def pyMaxArea (b : SelEntry) (l : List SelEntry) : SelEntry :=
  l.foldl (fun best x => if best.area < x.area then x else best) b

/-- Final step of `select_best_mask` applied to the collected
`overlapping_masks`: raise `ValueError` when empty, otherwise return the
index of the largest-area entry. -/
def fallbackSelect (l : List SelEntry) : Except String Nat :=
  match l with
  | [] => .error "No masks overlap with the detected face"
  | b :: rest => .ok (pyMaxArea b rest).index

/-- STEP 3, `select_best_mask`: Tier 1 keeps candidates with ≥ 10% overlap
with the face box; when none qualify, Tier 2 keeps candidates whose raster
is mask-positive at the face-box center; the largest-area kept candidate's
index is returned, and an error is raised when both tiers are empty. -/
def select_best_mask (masks : List MaskData) (face : FaceBox) : Except String Nat :=
  let t1 := tier1List face 0 masks
  fallbackSelect (if t1.isEmpty then tier2List face 0 masks else t1)

/-- A face location as returned by `face_recognition.face_locations`:
a `(top, right, bottom, left)` tuple in pixel coordinates. -/
structure FaceLoc where
  top : Int
  right : Int
  bottom : Int
  left : Int
deriving DecidableEq

/-- The bounding-box area `(bottom - top) * (right - left)` used to rank
multiple faces found in the query (reference) image. -/
def faceLocArea (loc : FaceLoc) : Int :=
  (loc.bottom - loc.top) * (loc.right - loc.left)

/-- The `face_areas` list `[((bottom-top)*(right-left), idx) for idx, ... in
enumerate(query_locations)]`, with enumeration starting at `i`. -/
def faceAreasFrom (i : Nat) : List FaceLoc → List (Int × Nat)
  | [] => []
  | loc :: rest => (faceLocArea loc, i) :: faceAreasFrom (i + 1) rest

/-- The first element of `face_areas` after `face_areas.sort(reverse=True)`:
since all `(area, idx)` pairs are distinct (indices differ), the head of the
descending sort is exactly the lexicographic maximum of the pairs, computed
here as a left fold keeping the lexicographically larger pair. -/
def pairMaxFold (b : Int × Nat) (l : List (Int × Nat)) : Int × Nat :=
  l.foldl (fun best x => if best.1 < x.1 ∨ (best.1 = x.1 ∧ best.2 < x.2) then x else best) b

/-- `largest_idx = face_areas[0][1]` after the reverse sort. -/
def largestQueryIdx (locs : List FaceLoc) : Nat :=
  match faceAreasFrom 0 locs with
  | [] => 0
  | p :: rest => (pairMaxFold p rest).2

/-- Index of the query face whose encoding is compared against the target
faces: the largest-face index when the query image has more than one face,
otherwise the single face at index 0. -/
def usedQueryIdx (queryLocs : List FaceLoc) : Nat :=
  if 1 < queryLocs.length then largestQueryIdx queryLocs else 0

/-- The dict returned by `find_matching_face` on a match:
`{'top', 'right', 'bottom', 'left', 'distance'}`. -/
structure MatchResult where
  top : Int
  right : Int
  bottom : Int
  left : Int
  distance : ℚ
deriving DecidableEq

/-- The fixed face-distance threshold `0.6`. -/
def matchThreshold : ℚ := 6 / 10

/-- The matching loop of `find_matching_face`: walk the target faces in
detector output order and return the first whose distance to the chosen
query encoding is at most the threshold; `d i` is the distance of target
face `i` (the zipped `distances` array). -/
def matchLoop (d : Nat → ℚ) : Nat → List FaceLoc → Option MatchResult
  | _, [] => none
  | i, loc :: rest =>
    if d i ≤ matchThreshold then
      some ⟨loc.top, loc.right, loc.bottom, loc.left, d i⟩
    else matchLoop d (i + 1) rest

/-- STEP 2, `find_matching_face`, with the external encoding machinery
abstracted: `targetLocs`/`queryLocs` are the detected face locations in the
target and query (reference) images, and `dist q t` is the Euclidean
distance between query face `q`'s encoding and target face `t`'s encoding
(`face_recognition.face_distance`).  Raises when the query image has no
faces; otherwise scans the target faces for the first one within the
threshold, returning `none` ("no match") when there is none. -/
def find_matching_face (targetLocs queryLocs : List FaceLoc)
    (dist : Nat → Nat → ℚ) : Except String (Option MatchResult) :=
  if queryLocs.length = 0 then .error "No faces found in query image"
  else .ok (matchLoop (dist (usedQueryIdx queryLocs)) 0 targetLocs)

/-- One uploaded target file, identified by its filename; the per-image
pipeline outcome is supplied separately as a function of the target. -/
structure TargetImage where
  filename : String
deriving DecidableEq

/-- One element of the `results` list of `process_images`: either
`{"original": ..., "output": ..., "url": ...}` or
`{"original": ..., "error": ...}`. -/
inductive ResultEntry where
  | success (original output url : String)
  | failure (original error : String)
deriving DecidableEq

/-- Outcome of one iteration of the target loop in `process_images`: a
successful pipeline run appends the output entry with its download URL, a
raised exception is caught and appended as an error entry. -/
def mkResultEntry (t : TargetImage) (r : Except String String) : ResultEntry :=
  match r with
  | .ok out => .success t.filename out ("/outputs/" ++ out)
  | .error e => .failure t.filename e

/-- The per-target loop of `process_images`: each target is processed
independently (`pipeline` abstracts the segment → match → select → inpaint
stages, returning the output filename or the caught exception's message)
and contributes exactly one entry to `results`. -/
def processLoop (pipeline : TargetImage → Except String String)
    (targets : List TargetImage) : List ResultEntry :=
  targets.map (fun t => mkResultEntry t (pipeline t))

/-- Does the entry carry a `"url"` key (successful image)? -/
def hasUrl : ResultEntry → Bool
  | .success _ _ _ => true
  | .failure _ _ => false

/-- Does the entry carry an `"error"` key (failed image)? -/
def hasError : ResultEntry → Bool
  | .success _ _ _ => false
  | .failure _ _ => true

/-- The JSON body returned by `process_images`: `success`, the per-image
`results` list, and the `processed`/`failed` counts. -/
structure BatchResult where
  success : Bool
  results : List ResultEntry
  processed : Nat
  failed : Nat
deriving DecidableEq

/-- The `/api/process` endpoint, `process_images`: reject more than one
target with an HTTP 400 before any processing, otherwise run the per-target
loop and report the entries together with the counts of entries carrying a
`"url"` key (processed) and an `"error"` key (failed).  The error value is
the `(status_code, detail)` pair of the raised `HTTPException`. -/
def process_images (pipeline : TargetImage → Except String String)
    (targets : List TargetImage) : Except (Nat × String) BatchResult :=
  if 1 < targets.length then .error (400, "Maximum 1 target image allowed")
  else
    let results := processLoop pipeline targets
    .ok ⟨true, results, (results.filter hasUrl).length, (results.filter hasError).length⟩

/-- Failure modes of `inpaint_with_lama` after the subprocess ran: a nonzero
exit status (`RuntimeError`) or no output file under either naming
convention (`FileNotFoundError`). -/
inductive LamaError where
  | processFailed (returncode : Int)
  | outputNotFound
deriving DecidableEq

/-- The two candidate output filenames probed in order by
`inpaint_with_lama` (the source's `possible_outputs`, relative to
`out_dir`): the mask-suffixed name first, then the base image name. -/
def possibleOutputs (base : String) : List String :=
  [base ++ "_mask001.png", base ++ ".png"]

/-- Output resolution of `inpaint_with_lama` (STEP 4), with the file system
abstracted as an existence predicate: a nonzero subprocess exit status is a
`processFailed` error; on a zero exit status the two candidate filenames
(for `base_name = "image"`) are probed in order and the first existing one
is used, with `outputNotFound` when neither exists. -/
def resolveLamaOutput (returncode : Int) (fileExists : String → Bool) :
    Except LamaError String :=
  if returncode ≠ 0 then .error (.processFailed returncode)
  else
    match (possibleOutputs "image").find? fileExists with
    | some p => .ok p
    | none => .error .outputNotFound

/-! ### Concrete inputs used in the evaluation theorems below -/

/-- A 10×10 raster whose every pixel is mask-positive. -/
def rasterFull : Raster := ⟨10, 10, fun _ _ => 255⟩

/-- A 10×10 raster that is mask-positive only at pixel (row 2, column 2). -/
def rasterDot : Raster := ⟨10, 10, fun y x => if y = 2 ∧ x = 2 then 255 else 0⟩

/-- A 5×5 face box at the image origin: center pixel (2, 2), area 25. -/
def faceDemo : FaceBox := ⟨0, 5, 5, 0⟩

/-- A degenerate face box with `right ≤ left`. -/
def faceDegenerate : FaceBox := ⟨0, 0, 10, 0⟩

/-- Two fully overlapping mask candidates with areas 50 and 100. -/
def masksT1 : List MaskData := [⟨50, some rasterFull⟩, ⟨100, some rasterFull⟩]

/-- One candidate covering only the face-box center pixel: 4% overlap. -/
def masksT2 : List MaskData := [⟨70, some rasterDot⟩]

/-- A demo per-image pipeline failing on `img2.jpg` with the matcher's
"no matching face" message and succeeding elsewhere. -/
def pipelineDemo : TargetImage → Except String String :=
  fun t => if t.filename = "img2.jpg" then .error "No matching face found" else .ok "out.jpg"

/-- Three reference faces with areas 100, 400 and 25: the largest is at
index 1. -/
def queryLocsDemo : List FaceLoc := [⟨0, 10, 10, 0⟩, ⟨0, 20, 20, 0⟩, ⟨0, 5, 5, 0⟩]

/-- Three target faces. -/
def targetLocsDemo : List FaceLoc := [⟨0, 8, 8, 0⟩, ⟨10, 30, 30, 10⟩, ⟨40, 60, 60, 40⟩]

/-- Demo encoding distances against the target faces: 0.9 (over threshold),
0.5 (under) and 0.3 (under and closest) — the first under-threshold face is
index 1 although index 2 is closer. -/
def distDemo : Nat → Nat → ℚ :=
  fun _ t => if t = 0 then 9 / 10 else if t = 1 then 1 / 2 else 3 / 10

/-! ### Helper lemmas about the selector's candidate lists and maximum -/

theorem countRow_eq_zero (m : Raster) (y : Nat) {cl cr : Int} (h : cr ≤ cl) :
    countRow m y cl cr = 0 := by
  unfold countRow
  rw [List.length_eq_zero]
  rw [List.filter_eq_nil_iff]
  intro x _
  simp only [Bool.and_eq_true, decide_eq_true_eq, not_and]
  intro h1 h2
  omega

theorem cropCount_eq_zero (m : Raster) {ct cb cl cr : Int}
    (h : cb ≤ ct ∨ cr ≤ cl) : cropCount m ct cb cl cr = 0 := by
  unfold cropCount
  apply List.sum_eq_zero
  intro n hn
  rw [List.mem_map] at hn
  obtain ⟨y, _, rfl⟩ := hn
  rcases h with h | h
  · rw [if_neg]
    intro ⟨h1, h2⟩
    omega
  · split
    · exact countRow_eq_zero m y h
    · rfl

theorem tier1Test_some (face : FaceBox) (a : Nat) (m : Raster) :
    tier1Test face ⟨a, some m⟩ =
      if min (m.h : Int) face.bottom ≤ max 0 face.top ∨
          min (m.w : Int) face.right ≤ max 0 face.left then none
      else if 10 ≤ overlapPercentage face m then
        some (overlapPixels face m, overlapPercentage face m)
      else none := rfl

theorem tier1Qualifies_iff (face : FaceBox) (md : MaskData) :
    tier1Qualifies face md = true ↔
      ∃ m, md.raster = some m ∧ 10 ≤ overlapPercentage face m := by
  obtain ⟨a, r⟩ := md
  cases r with
  | none => simp [tier1Qualifies, tier1Test]
  | some m =>
    unfold tier1Qualifies
    rw [tier1Test_some]
    by_cases hcrop : min (m.h : Int) face.bottom ≤ max 0 face.top ∨
        min (m.w : Int) face.right ≤ max 0 face.left
    · rw [if_pos hcrop]
      simp only [Option.isSome_none, Bool.false_eq_true, false_iff, not_exists]
      rintro m' ⟨hm', hge⟩
      obtain rfl : m = m' := by injection hm'
      have hp : overlapPixels face m = 0 := by
        unfold overlapPixels
        exact cropCount_eq_zero m hcrop
      have h0 : overlapPercentage face m = 0 := by
        unfold overlapPercentage
        rw [hp]
        split <;> norm_num
      rw [h0] at hge
      norm_num at hge
    · rw [if_neg hcrop]
      by_cases h10 : 10 ≤ overlapPercentage face m
      · rw [if_pos h10]
        simp only [Option.isSome_some, true_iff]
        exact ⟨m, rfl, h10⟩
      · rw [if_neg h10]
        simp only [Option.isSome_none, Bool.false_eq_true, false_iff, not_exists]
        rintro m' ⟨hm', hge⟩
        obtain rfl : m = m' := by injection hm'
        exact h10 hge

theorem tier2Qualifies_iff (face : FaceBox) (md : MaskData) :
    ((fun md => if centerHit face md then some ((1 : Nat), (0 : ℚ)) else none) md).isSome
      = centerHit face md := by
  by_cases h : centerHit face md <;> simp [h]

theorem mem_tierList {g : MaskData → Option (Nat × ℚ)} {l : List MaskData}
    {i : Nat} {e : SelEntry} :
    e ∈ tierList g i l ↔
      ∃ j, ∃ hj : j < l.length, e.index = i + j ∧ e.area = l[j].area ∧
        g l[j] = some (e.overlap_pixels, e.overlap_percentage) := by
  induction l generalizing i with
  | nil => simp [tierList]
  | cons md rest ih =>
    cases hg : g md with
    | none =>
      rw [tierList, hg]
      rw [ih]
      constructor
      · rintro ⟨j, hj, h1, h2, h3⟩
        exact ⟨j + 1, by simpa using hj, by omega, by simpa using h2, by simpa using h3⟩
      · rintro ⟨j, hj, h1, h2, h3⟩
        cases j with
        | zero =>
          simp only [List.getElem_cons_zero] at h3
          rw [hg] at h3
          exact absurd h3 (by simp)
        | succ j' =>
          simp only [List.getElem_cons_succ] at h2 h3
          exact ⟨j', by simpa using hj, by omega, h2, h3⟩
    | some q =>
      rw [tierList, hg]
      rw [List.mem_cons, ih]
      constructor
      · rintro (rfl | ⟨j, hj, h1, h2, h3⟩)
        · refine ⟨0, by simp, by simp, by simp, ?_⟩
          simpa using hg
        · exact ⟨j + 1, by simpa using hj, by omega, by simpa using h2, by simpa using h3⟩
      · rintro ⟨j, hj, h1, h2, h3⟩
        cases j with
        | zero =>
          left
          simp only [List.getElem_cons_zero] at h2 h3
          rw [hg] at h3
          injection h3 with h3
          obtain ⟨e1, e2, e3, e4⟩ := e
          simp only at h1 h2 h3 ⊢
          simp [SelEntry.mk.injEq, h1, h2, h3]
        | succ j' =>
          right
          simp only [List.getElem_cons_succ] at h2 h3
          exact ⟨j', by simpa using hj, by omega, h2, h3⟩

theorem tierList_index_lower {g : MaskData → Option (Nat × ℚ)} {l : List MaskData}
    {i : Nat} {e : SelEntry} (h : e ∈ tierList g i l) : i ≤ e.index := by
  obtain ⟨j, hj, h1, -, -⟩ := mem_tierList.mp h
  omega

theorem tierList_pairwise {g : MaskData → Option (Nat × ℚ)} {l : List MaskData}
    {i : Nat} : (tierList g i l).Pairwise (fun a b => a.index < b.index) := by
  induction l generalizing i with
  | nil => simp [tierList]
  | cons md rest ih =>
    rw [tierList]
    cases g md with
    | none => exact ih
    | some q =>
      rw [List.pairwise_cons]
      refine ⟨fun e he => ?_, ih⟩
      have := tierList_index_lower he
      simp only at this ⊢
      omega

theorem tierList_eq_nil {g : MaskData → Option (Nat × ℚ)} {l : List MaskData}
    (h : ∀ j, ∀ hj : j < l.length, g l[j] = none) :
    ∀ i, tierList g i l = [] := by
  induction l with
  | nil => intro i; rfl
  | cons md rest ih =>
    intro i
    rw [tierList]
    have h0 := h 0 (by simp)
    simp only [List.getElem_cons_zero] at h0
    rw [h0]
    exact ih (fun j hj => by simpa using h (j + 1) (by simpa using hj)) (i + 1)

theorem pyMaxArea_cons (b y : SelEntry) (l : List SelEntry) :
    pyMaxArea b (y :: l) = pyMaxArea (if b.area < y.area then y else b) l := rfl

theorem pyMaxArea_mem (b : SelEntry) (l : List SelEntry) :
    pyMaxArea b l ∈ b :: l := by
  induction l generalizing b with
  | nil => simp [pyMaxArea]
  | cons y l' ih =>
    rw [pyMaxArea_cons]
    rcases List.mem_cons.mp (ih (if b.area < y.area then y else b)) with h | h
    · rw [h]
      split <;> simp
    · simp [List.mem_cons, h]

theorem pyMaxArea_le (b : SelEntry) (l : List SelEntry) :
    ∀ x ∈ b :: l, x.area ≤ (pyMaxArea b l).area := by
  induction l generalizing b with
  | nil =>
    intro x hx
    rw [List.mem_singleton] at hx
    subst hx
    exact le_refl _
  | cons y l' ih =>
    intro x hx
    rw [pyMaxArea_cons]
    have hb' : (if b.area < y.area then y else b) ∈
        (if b.area < y.area then y else b) :: l' := List.mem_cons_self _ _
    rcases List.mem_cons.mp hx with rfl | hx
    · calc x.area ≤ (if x.area < y.area then y else x).area := by split <;> omega
        _ ≤ _ := ih _ _ hb'
    rcases List.mem_cons.mp hx with rfl | hx
    · calc x.area ≤ (if b.area < x.area then x else b).area := by split <;> omega
        _ ≤ _ := ih _ _ hb'
    · exact ih _ x (List.mem_cons_of_mem _ hx)

theorem pyMaxArea_eq_or_lt (b : SelEntry) (l : List SelEntry) :
    pyMaxArea b l = b ∨ b.area < (pyMaxArea b l).area := by
  induction l generalizing b with
  | nil => left; rfl
  | cons y l' ih =>
    rw [pyMaxArea_cons]
    by_cases h : b.area < y.area
    · right
      rw [if_pos h]
      have hy : y.area ≤ (pyMaxArea y l').area :=
        pyMaxArea_le y l' y (List.mem_cons_self _ _)
      omega
    · rw [if_neg h]
      exact ih b

theorem pyMaxArea_first (b : SelEntry) (l : List SelEntry)
    (hpw : (b :: l).Pairwise (fun a c => a.index < c.index)) :
    ∀ x ∈ b :: l, x.index < (pyMaxArea b l).index → x.area < (pyMaxArea b l).area := by
  induction l generalizing b with
  | nil =>
    intro x hx hlt
    rw [List.mem_singleton] at hx
    subst hx
    exact absurd hlt (lt_irrefl _)
  | cons y l' ih =>
    intro x hx hlt
    rw [pyMaxArea_cons] at hlt ⊢
    obtain ⟨hball, hyl'⟩ := List.pairwise_cons.mp hpw
    by_cases hby : b.area < y.area
    · rw [if_pos hby] at hlt ⊢
      rcases List.mem_cons.mp hx with hxb | hx'
      · subst hxb
        have hy : y.area ≤ (pyMaxArea y l').area :=
          pyMaxArea_le y l' y (List.mem_cons_self _ _)
        omega
      · exact ih y hyl' x hx' hlt
    · rw [if_neg hby] at hlt ⊢
      have hsub : (b :: l').Pairwise (fun a c => a.index < c.index) :=
        List.pairwise_cons.mpr
          ⟨fun c hc => hball c (List.mem_cons_of_mem _ hc),
            (List.pairwise_cons.mp hyl').2⟩
      rcases List.mem_cons.mp hx with hxb | hx'
      · subst hxb
        exact ih x hsub x (List.mem_cons_self _ _) hlt
      rcases List.mem_cons.mp hx' with hxy | hx''
      · subst hxy
        rcases pyMaxArea_eq_or_lt b l' with heq | hstrict
        · rw [heq] at hlt
          have hbx : b.index < x.index := hball x (List.mem_cons_self _ _)
          omega
        · have hxb' : x.area ≤ b.area := by omega
          omega
      · exact ih b hsub x (List.mem_cons_of_mem _ hx'') hlt

theorem select_best_mask_eq (masks : List MaskData) (face : FaceBox) :
    select_best_mask masks face =
      if tier1List face 0 masks = [] then fallbackSelect (tier2List face 0 masks)
      else fallbackSelect (tier1List face 0 masks) := by
  cases h : tier1List face 0 masks with
  | nil => simp [select_best_mask, h]
  | cons b rest => simp [select_best_mask, h]

theorem qualifiesT1_iff_isSome (face : FaceBox) (md : MaskData) :
    qualifiesT1 face md ↔ (tier1Test face md).isSome = true :=
  (tier1Qualifies_iff face md).symm

/-- Interface between a Tier-1 qualifier and its entry in the
`overlapping_masks` list. -/
theorem tier1_entry_of_qualifies {face : FaceBox} {masks : List MaskData}
    {j : Nat} (hj : j < masks.length) (hq : qualifiesT1 face masks[j]) :
    ∃ q : Nat × ℚ, (⟨j, masks[j].area, q.1, q.2⟩ : SelEntry) ∈ tier1List face 0 masks := by
  obtain ⟨q, hq⟩ := Option.isSome_iff_exists.mp ((qualifiesT1_iff_isSome face _).mp hq)
  exact ⟨q, mem_tierList.mpr ⟨j, hj, by simp, rfl, by rw [hq]⟩⟩

/-- Members of the Tier-1 list point back to qualifying candidates. -/
theorem tier1_qualifies_of_mem {face : FaceBox} {masks : List MaskData}
    {e : SelEntry} (he : e ∈ tier1List face 0 masks) :
    ∃ hj : e.index < masks.length,
      qualifiesT1 face masks[e.index] ∧ e.area = masks[e.index].area := by
  obtain ⟨j, hj, h1, h2, h3⟩ := mem_tierList.mp he
  have hidx : e.index = j := by omega
  subst hidx
  refine ⟨hj, ?_, h2⟩
  rw [qualifiesT1_iff_isSome, h3]
  rfl

/-! ### Claim theorems for the mask selector -/

/-- Claim C1: whenever at least one mask candidate's overlap percentage
(mask-positive pixels inside the clamped face rectangle, divided by the
face area, times 100) is at least 10, `select_best_mask` returns the index
of a qualifying candidate with the largest total mask area — every
qualifier's area is bounded by the winner's, and every qualifier earlier in
the input ordering has strictly smaller area, so on area ties the first
qualifier encountered wins. -/
theorem select_best_mask_tier1_largest_area (masks : List MaskData) (face : FaceBox)
    (hq : ∃ j, ∃ hj : j < masks.length, qualifiesT1 face masks[j]) :
    ∃ w, ∃ hw : w < masks.length,
      select_best_mask masks face = .ok w ∧
      qualifiesT1 face masks[w] ∧
      (∀ j, ∀ hj : j < masks.length, qualifiesT1 face masks[j] →
        masks[j].area ≤ masks[w].area) ∧
      (∀ j, ∀ hj : j < masks.length, j < w → qualifiesT1 face masks[j] →
        masks[j].area < masks[w].area) := by
  obtain ⟨j0, hj0, hq0⟩ := hq
  obtain ⟨q0, hmem0⟩ := tier1_entry_of_qualifies hj0 hq0
  have hne : tier1List face 0 masks ≠ [] := fun h => by
    rw [h] at hmem0
    exact (List.not_mem_nil _) hmem0
  obtain ⟨b, rest, hbr⟩ : ∃ b rest, tier1List face 0 masks = b :: rest := by
    cases h : tier1List face 0 masks with
    | nil => exact absurd h hne
    | cons b r => exact ⟨b, r, rfl⟩
  have hsel : select_best_mask masks face = .ok (pyMaxArea b rest).index := by
    rw [select_best_mask_eq, hbr, if_neg (List.cons_ne_nil b rest)]
    rfl
  have hwin_mem : pyMaxArea b rest ∈ tier1List face 0 masks := by
    rw [hbr]
    exact pyMaxArea_mem b rest
  obtain ⟨hw, hwq, hwarea⟩ := tier1_qualifies_of_mem hwin_mem
  refine ⟨(pyMaxArea b rest).index, hw, hsel, hwq, ?_, ?_⟩
  · intro j hj hqj
    obtain ⟨qj, hmemj⟩ := tier1_entry_of_qualifies hj hqj
    have hle := pyMaxArea_le b rest _ (hbr ▸ hmemj)
    exact hwarea ▸ hle
  · intro j hj hjlt hqj
    obtain ⟨qj, hmemj⟩ := tier1_entry_of_qualifies hj hqj
    have hpw : (b :: rest).Pairwise (fun a c => a.index < c.index) := by
      have h := tierList_pairwise (g := tier1Test face) (l := masks) (i := 0)
      rw [show tierList (tier1Test face) 0 masks = tier1List face 0 masks from rfl,
        hbr] at h
      exact h
    have hlt := pyMaxArea_first b rest hpw _ (hbr ▸ hmemj) (by simpa using hjlt)
    exact hwarea ▸ hlt

theorem tier2_entry_of_hit {face : FaceBox} {masks : List MaskData} {j : Nat}
    (hj : j < masks.length) (hc : centerHit face masks[j] = true) :
    (⟨j, masks[j].area, 1, 0⟩ : SelEntry) ∈ tier2List face 0 masks :=
  mem_tierList.mpr ⟨j, hj, by simp, rfl, by simp [hc]⟩

theorem tier2_hit_of_mem {face : FaceBox} {masks : List MaskData} {e : SelEntry}
    (he : e ∈ tier2List face 0 masks) :
    ∃ hj : e.index < masks.length,
      centerHit face masks[e.index] = true ∧ e.area = masks[e.index].area := by
  obtain ⟨j, hj, h1, h2, h3⟩ := mem_tierList.mp he
  have hidx : e.index = j := by omega
  subst hidx
  refine ⟨hj, ?_, h2⟩
  by_cases hc : centerHit face masks[e.index]
  · exact hc
  · simp [hc] at h3

theorem tier1List_eq_nil_of_no_qualifier {face : FaceBox} {masks : List MaskData}
    (h1 : ∀ j, ∀ hj : j < masks.length, ¬ qualifiesT1 face masks[j]) :
    tier1List face 0 masks = [] := by
  refine tierList_eq_nil (fun j hj => ?_) 0
  cases ht : tier1Test face masks[j] with
  | none => rfl
  | some q =>
    refine absurd ((qualifiesT1_iff_isSome face _).mpr ?_) (h1 j hj)
    rw [ht]
    rfl

/-- Claim C2: when no candidate reaches a 10% overlap percentage,
`select_best_mask` falls back to the single-pixel test at the face box's
center `((left+right)//2, (top+bottom)//2)` and, among the candidates whose
raster is mask-positive there, returns the one with the largest total mask
area, the first encountered winning area ties. -/
theorem select_best_mask_tier2_center_fallback (masks : List MaskData) (face : FaceBox)
    (h1 : ∀ j, ∀ hj : j < masks.length, ¬ qualifiesT1 face masks[j])
    (h2 : ∃ j, ∃ hj : j < masks.length, centerHit face masks[j] = true) :
    ∃ w, ∃ hw : w < masks.length,
      select_best_mask masks face = .ok w ∧
      centerHit face masks[w] = true ∧
      (∀ j, ∀ hj : j < masks.length, centerHit face masks[j] = true →
        masks[j].area ≤ masks[w].area) ∧
      (∀ j, ∀ hj : j < masks.length, j < w → centerHit face masks[j] = true →
        masks[j].area < masks[w].area) := by
  have ht1 : tier1List face 0 masks = [] := tier1List_eq_nil_of_no_qualifier h1
  obtain ⟨j0, hj0, hc0⟩ := h2
  have hmem0 := tier2_entry_of_hit hj0 hc0
  have hne : tier2List face 0 masks ≠ [] := fun h => by
    rw [h] at hmem0
    exact (List.not_mem_nil _) hmem0
  obtain ⟨b, rest, hbr⟩ : ∃ b rest, tier2List face 0 masks = b :: rest := by
    cases h : tier2List face 0 masks with
    | nil => exact absurd h hne
    | cons b r => exact ⟨b, r, rfl⟩
  have hsel : select_best_mask masks face = .ok (pyMaxArea b rest).index := by
    rw [select_best_mask_eq, if_pos ht1, hbr]
    rfl
  have hwin_mem : pyMaxArea b rest ∈ tier2List face 0 masks := by
    rw [hbr]
    exact pyMaxArea_mem b rest
  obtain ⟨hw, hwc, hwarea⟩ := tier2_hit_of_mem hwin_mem
  refine ⟨(pyMaxArea b rest).index, hw, hsel, hwc, ?_, ?_⟩
  · intro j hj hcj
    have hle := pyMaxArea_le b rest _ (hbr ▸ tier2_entry_of_hit hj hcj)
    exact hwarea ▸ hle
  · intro j hj hjlt hcj
    have hpw : (b :: rest).Pairwise (fun a c => a.index < c.index) := by
      have h := tierList_pairwise
        (g := fun md => if centerHit face md then some ((1 : Nat), (0 : ℚ)) else none)
        (l := masks) (i := 0)
      rw [show tierList _ 0 masks = tier2List face 0 masks from rfl, hbr] at h
      exact h
    have hlt := pyMaxArea_first b rest hpw _ (hbr ▸ tier2_entry_of_hit hj hcj)
      (by simpa using hjlt)
    exact hwarea ▸ hlt

theorem crop_empty_of_degenerate (face : FaceBox) (m : Raster)
    (hdeg : face.right ≤ face.left ∨ face.bottom ≤ face.top) :
    min (m.h : Int) face.bottom ≤ max 0 face.top ∨
      min (m.w : Int) face.right ≤ max 0 face.left := by
  rcases hdeg with h | h
  · right
    calc min (m.w : Int) face.right ≤ face.right := min_le_right _ _
      _ ≤ face.left := h
      _ ≤ max 0 face.left := le_max_right _ _
  · left
    calc min (m.h : Int) face.bottom ≤ face.bottom := min_le_right _ _
      _ ≤ face.top := h
      _ ≤ max 0 face.top := le_max_right _ _

/-- Claim C3: a degenerate face bounding box (`right ≤ left` or
`bottom ≤ top`) causes no division error — the overlap percentage of every
raster is 0, Tier 1 collects no candidate at all, and `select_best_mask`
proceeds to the Tier-2 center-point fallback. -/
theorem select_best_mask_degenerate_box (masks : List MaskData) (face : FaceBox)
    (hdeg : face.right ≤ face.left ∨ face.bottom ≤ face.top) :
    (∀ m : Raster, overlapPercentage face m = 0) ∧
    tier1List face 0 masks = [] ∧
    select_best_mask masks face = fallbackSelect (tier2List face 0 masks) := by
  have hpct : ∀ m : Raster, overlapPercentage face m = 0 := by
    intro m
    have hp : overlapPixels face m = 0 := by
      unfold overlapPixels
      exact cropCount_eq_zero m (crop_empty_of_degenerate face m hdeg)
    unfold overlapPercentage
    rw [hp]
    split <;> norm_num
  have ht1 : tier1List face 0 masks = [] := by
    refine tier1List_eq_nil_of_no_qualifier (fun j hj => ?_)
    rintro ⟨m, -, hge⟩
    rw [hpct m] at hge
    norm_num at hge
  exact ⟨hpct, ht1, by rw [select_best_mask_eq, if_pos ht1]⟩

/-- Claim C4: when no candidate qualifies at Tier 1 and none passes the
Tier-2 center-point test — including the case of an empty candidate list —
`select_best_mask` fails with the "no overlapping mask" error; and in the
batch loop such a failure is caught as that image's own error entry, the
surrounding images' entries being computed from their own pipeline results
alone. -/
theorem select_best_mask_no_overlap_error (masks : List MaskData) (face : FaceBox)
    (h1 : ∀ j, ∀ hj : j < masks.length, ¬ qualifiesT1 face masks[j])
    (h2 : ∀ j, ∀ hj : j < masks.length, centerHit face masks[j] = false) :
    select_best_mask masks face = .error "No masks overlap with the detected face" ∧
    (∀ (pipeline : TargetImage → Except String String)
      (pre post : List TargetImage) (t : TargetImage),
      processLoop pipeline (pre ++ t :: post) =
        processLoop pipeline pre ++
          mkResultEntry t (pipeline t) :: processLoop pipeline post) := by
  constructor
  · have ht1 : tier1List face 0 masks = [] := tier1List_eq_nil_of_no_qualifier h1
    have ht2 : tier2List face 0 masks = [] := by
      refine tierList_eq_nil (fun j hj => ?_) 0
      simp [h2 j hj]
    rw [select_best_mask_eq, if_pos ht1, ht2]
    rfl
  · intro pipeline pre post t
    simp [processLoop]

/-! ### Helper lemmas about the face-matcher policy -/

theorem mem_faceAreasFrom {l : List FaceLoc} {i : Nat} {p : Int × Nat} :
    p ∈ faceAreasFrom i l ↔
      ∃ j, ∃ hj : j < l.length, p = (faceLocArea l[j], i + j) := by
  induction l generalizing i with
  | nil => simp [faceAreasFrom]
  | cons loc rest ih =>
    rw [faceAreasFrom, List.mem_cons, ih]
    constructor
    · rintro (rfl | ⟨j, hj, rfl⟩)
      · exact ⟨0, by simp, by simp⟩
      · exact ⟨j + 1, by simpa using hj, by simp; omega⟩
    · rintro ⟨j, hj, rfl⟩
      cases j with
      | zero => left; simp
      | succ j' =>
        right
        exact ⟨j', by simpa using hj, by simp; omega⟩

theorem pairMaxFold_cons (b y : Int × Nat) (l : List (Int × Nat)) :
    pairMaxFold b (y :: l) =
      pairMaxFold (if b.1 < y.1 ∨ (b.1 = y.1 ∧ b.2 < y.2) then y else b) l := rfl

theorem pairMaxFold_mem (b : Int × Nat) (l : List (Int × Nat)) :
    pairMaxFold b l ∈ b :: l := by
  induction l generalizing b with
  | nil => simp [pairMaxFold]
  | cons y l' ih =>
    rw [pairMaxFold_cons]
    rcases List.mem_cons.mp (ih (if b.1 < y.1 ∨ (b.1 = y.1 ∧ b.2 < y.2) then y else b))
      with h | h
    · rw [h]
      split <;> simp
    · simp [List.mem_cons, h]

theorem pairMaxFold_ge (b : Int × Nat) (l : List (Int × Nat)) :
    ∀ x ∈ b :: l, x.1 < (pairMaxFold b l).1 ∨
      (x.1 = (pairMaxFold b l).1 ∧ x.2 ≤ (pairMaxFold b l).2) := by
  induction l generalizing b with
  | nil =>
    intro x hx
    rw [List.mem_singleton] at hx
    subst hx
    right
    exact ⟨rfl, le_refl _⟩
  | cons y l' ih =>
    intro x hx
    rw [pairMaxFold_cons]
    split
    · rename_i hcond
      rcases List.mem_cons.mp hx with hxb | hx'
      · rw [hxb]
        have hy := ih y y (List.mem_cons_self _ _)
        rcases hcond with h | ⟨h1, h2⟩
        · rcases hy with h' | ⟨h1', h2'⟩
          · left; omega
          · left; omega
        · rcases hy with h' | ⟨h1', h2'⟩
          · left; omega
          · right; constructor <;> omega
      rcases List.mem_cons.mp hx' with hxy | hx''
      · rw [hxy]
        exact ih y y (List.mem_cons_self _ _)
      · exact ih y x (List.mem_cons_of_mem _ hx'')
    · rename_i hncond
      push_neg at hncond
      rcases List.mem_cons.mp hx with hxb | hx'
      · rw [hxb]
        exact ih b b (List.mem_cons_self _ _)
      rcases List.mem_cons.mp hx' with hxy | hx''
      · rw [hxy]
        have hb := ih b b (List.mem_cons_self _ _)
        obtain ⟨hle1, himp⟩ := hncond
        rcases lt_or_eq_of_le hle1 with hlt | heq
        · rcases hb with h | ⟨h1, h2⟩
          · left; omega
          · left; omega
        · have h2y : y.2 ≤ b.2 := by
            have := himp heq.symm
            omega
          rcases hb with h | ⟨h1, h2⟩
          · left; omega
          · right; constructor <;> omega
      · exact ih b x (List.mem_cons_of_mem _ hx'')

theorem largestQueryIdx_spec (locs : List FaceLoc) (hne : locs ≠ []) :
    ∃ hw : largestQueryIdx locs < locs.length,
      (∀ j, ∀ hj : j < locs.length,
        faceLocArea locs[j] ≤ faceLocArea locs[largestQueryIdx locs]) ∧
      (∀ j, ∀ hj : j < locs.length,
        faceLocArea locs[j] = faceLocArea locs[largestQueryIdx locs] →
        j ≤ largestQueryIdx locs) := by
  obtain ⟨p, rest, hpr⟩ : ∃ p rest, faceAreasFrom 0 locs = p :: rest := by
    cases h : faceAreasFrom 0 locs with
    | nil =>
      exfalso
      cases locs with
      | nil => exact hne rfl
      | cons a l => rw [faceAreasFrom] at h; exact absurd h (List.cons_ne_nil _ _)
    | cons p r => exact ⟨p, r, rfl⟩
  have hidx : largestQueryIdx locs = (pairMaxFold p rest).2 := by
    unfold largestQueryIdx
    rw [hpr]
  have hwin_mem : pairMaxFold p rest ∈ faceAreasFrom 0 locs := by
    rw [hpr]
    exact pairMaxFold_mem p rest
  obtain ⟨jw, hjw, hweq⟩ := mem_faceAreasFrom.mp hwin_mem
  have hw2 : (pairMaxFold p rest).2 = jw := by rw [hweq]; simp
  have hw1 : (pairMaxFold p rest).1 = faceLocArea locs[jw] := by rw [hweq]
  have hwlt : largestQueryIdx locs < locs.length := by rw [hidx, hw2]; exact hjw
  refine ⟨hwlt, ?_, ?_⟩
  · intro j hj
    have hmem : (faceLocArea locs[j], j) ∈ faceAreasFrom 0 locs :=
      mem_faceAreasFrom.mpr ⟨j, hj, by simp⟩
    have := pairMaxFold_ge p rest _ (hpr ▸ hmem)
    have hidx2 : locs[largestQueryIdx locs] = locs[jw] := by
      congr 1
      rw [hidx, hw2]
    rw [hidx2, ← hw1]
    rcases this with h | ⟨h1, -⟩
    · exact le_of_lt h
    · exact le_of_eq h1
  · intro j hj heq
    have hmem : (faceLocArea locs[j], j) ∈ faceAreasFrom 0 locs :=
      mem_faceAreasFrom.mpr ⟨j, hj, by simp⟩
    have hge := pairMaxFold_ge p rest _ (hpr ▸ hmem)
    have hidx2 : locs[largestQueryIdx locs] = locs[jw] := by
      congr 1
      rw [hidx, hw2]
    rw [hidx2, ← hw1] at heq
    rcases hge with h | ⟨-, h2⟩
    · omega
    · rw [hidx, hw2]
      omega

theorem matchLoop_found (d : Nat → ℚ) (l : List FaceLoc) :
    ∀ (i j : Nat) (hj : j < l.length),
      d (i + j) ≤ matchThreshold →
      (∀ k, k < j → ¬ d (i + k) ≤ matchThreshold) →
      matchLoop d i l =
        some ⟨l[j].top, l[j].right, l[j].bottom, l[j].left, d (i + j)⟩ := by
  induction l with
  | nil =>
    intro i j hj
    exact absurd hj (by simp)
  | cons loc rest ih =>
    intro i j hj hle hnone
    cases j with
    | zero =>
      rw [matchLoop]
      rw [if_pos (by simpa using hle)]
      simp
    | succ j' =>
      rw [matchLoop]
      rw [if_neg (by simpa using hnone 0 (Nat.zero_lt_succ _))]
      have harith : i + 1 + j' = i + (j' + 1) := by omega
      have := ih (i + 1) j' (by simpa using hj)
        (by rw [harith]; exact hle)
        (fun k hk => by
          have := hnone (k + 1) (by omega)
          have harith2 : i + (k + 1) = i + 1 + k := by omega
          rw [harith2] at this
          exact this)
      rw [this]
      simp only [List.getElem_cons_succ]
      rw [harith]

theorem matchLoop_none (d : Nat → ℚ) (l : List FaceLoc) :
    ∀ i : Nat, (∀ k, k < l.length → ¬ d (i + k) ≤ matchThreshold) →
      matchLoop d i l = none := by
  induction l with
  | nil => intro i _; rfl
  | cons loc rest ih =>
    intro i hnone
    rw [matchLoop]
    rw [if_neg (by simpa using hnone 0 (by simp))]
    exact ih (i + 1) (fun k hk => by
      have := hnone (k + 1) (by simpa using hk)
      have harith : i + (k + 1) = i + 1 + k := by omega
      rw [harith] at this
      exact this)

/-! ### Claim theorems for the face matcher -/

/-- Claim C5 counterexample: two reference faces of equal bounding-box area.
`face_areas.sort(reverse=True)` sorts the `(area, idx)` pairs descending
lexicographically, so among equal areas the larger index comes first: the
selected reference face is index 1, not the earlier index 0 the claim
requires.  The choice is observable: with encoding distances `1/2` for
query face 0 and `1` for query face 1 against the single target face, the
matcher reports no match, although scanning with query face 0's distances
would have produced one. -/
theorem find_matching_face_equal_area_tie_counterexample :
    faceLocArea ⟨0, 10, 10, 0⟩ = faceLocArea ⟨0, 10, 10, 0⟩ ∧
    largestQueryIdx [⟨0, 10, 10, 0⟩, ⟨0, 10, 10, 0⟩] = 1 ∧
    find_matching_face [⟨5, 20, 20, 5⟩] [⟨0, 10, 10, 0⟩, ⟨0, 10, 10, 0⟩]
      (fun q _ => if q = 0 then 1 / 2 else 1) = .ok none ∧
    matchLoop (fun _ => (1 : ℚ) / 2) 0 [⟨5, 20, 20, 5⟩] =
      some ⟨5, 20, 20, 5, 1 / 2⟩ := by
  refine ⟨rfl, by decide, ?_, ?_⟩
  · unfold find_matching_face
    rw [if_neg (by decide)]
    have hq : usedQueryIdx [⟨0, 10, 10, 0⟩, ⟨0, 10, 10, 0⟩] = 1 := by decide
    rw [hq]
    rw [matchLoop]
    rw [if_neg (by norm_num [matchThreshold])]
    rfl
  · rw [matchLoop]
    rw [if_pos (by norm_num [matchThreshold])]

/-- Claim C5 (amended): when the reference image has more than one detected
face, the matcher selects the face with the largest bounding-box area
`(bottom-top)*(right-left)` before any encoding comparison, and the match
scan uses exactly that face's distances; but on equal areas the
latest-indexed face wins, not the earliest: descending sort of the
`(area, index)` pairs places the largest index first among ties. -/
theorem find_matching_face_largest_query_face (targetLocs queryLocs : List FaceLoc)
    (dist : Nat → Nat → ℚ) (h : 1 < queryLocs.length) :
    ∃ hw : usedQueryIdx queryLocs < queryLocs.length,
      (∀ j, ∀ hj : j < queryLocs.length,
        faceLocArea queryLocs[j] ≤ faceLocArea queryLocs[usedQueryIdx queryLocs]) ∧
      (∀ j, ∀ hj : j < queryLocs.length,
        faceLocArea queryLocs[j] = faceLocArea queryLocs[usedQueryIdx queryLocs] →
        j ≤ usedQueryIdx queryLocs) ∧
      find_matching_face targetLocs queryLocs dist =
        .ok (matchLoop (dist (usedQueryIdx queryLocs)) 0 targetLocs) := by
  have hne : queryLocs ≠ [] := by
    intro h0
    rw [h0] at h
    simp at h
  have huse : usedQueryIdx queryLocs = largestQueryIdx queryLocs := by
    unfold usedQueryIdx
    rw [if_pos h]
  obtain ⟨hw, hmax, htie⟩ := largestQueryIdx_spec queryLocs hne
  rw [huse]
  refine ⟨hw, hmax, htie, ?_⟩
  unfold find_matching_face
  rw [if_neg (by simp [List.length_eq_zero]; exact hne), huse]

/-- Claim C6: the matcher returns the first target face, in detector output
order, whose distance to the chosen reference encoding is at most 0.6 —
not necessarily the closest one — and reports no match when no target face
is within the threshold. -/
theorem find_matching_face_first_match (targetLocs queryLocs : List FaceLoc)
    (dist : Nat → Nat → ℚ) (hq : queryLocs ≠ []) :
    (∀ j, ∀ hj : j < targetLocs.length,
      dist (usedQueryIdx queryLocs) j ≤ matchThreshold →
      (∀ i, i < j → ¬ dist (usedQueryIdx queryLocs) i ≤ matchThreshold) →
      find_matching_face targetLocs queryLocs dist =
        .ok (some ⟨targetLocs[j].top, targetLocs[j].right, targetLocs[j].bottom,
          targetLocs[j].left, dist (usedQueryIdx queryLocs) j⟩)) ∧
    ((∀ i, i < targetLocs.length → ¬ dist (usedQueryIdx queryLocs) i ≤ matchThreshold) →
      find_matching_face targetLocs queryLocs dist = .ok none) := by
  have hlen : ¬ queryLocs.length = 0 := by
    simpa [List.length_eq_zero] using hq
  constructor
  · intro j hj hle hnone
    unfold find_matching_face
    rw [if_neg hlen]
    rw [matchLoop_found (dist (usedQueryIdx queryLocs)) targetLocs 0 j hj
      (by simpa using hle) (fun k hk => by simpa using hnone k hk)]
    simp
  · intro hnone
    unfold find_matching_face
    rw [if_neg hlen]
    rw [matchLoop_none (dist (usedQueryIdx queryLocs)) targetLocs 0
      (fun k hk => by simpa using hnone k hk)]

/-- Claim C10: a target image with zero detected faces is a valid no-match
outcome — the matcher returns `none` without raising — while a reference
(query) image with zero detected faces raises the "no faces in query
image" error. -/
theorem find_matching_face_empty_cases (queryLocs : List FaceLoc)
    (dist : Nat → Nat → ℚ) :
    (queryLocs ≠ [] → find_matching_face [] queryLocs dist = .ok none) ∧
    (∀ targetLocs : List FaceLoc, queryLocs = [] →
      find_matching_face targetLocs queryLocs dist =
        .error "No faces found in query image") := by
  constructor
  · intro hne
    unfold find_matching_face
    rw [if_neg (by simpa [List.length_eq_zero] using hne)]
    rfl
  · intro targetLocs hnil
    subst hnil
    rfl

/-! ### Claim theorems for the orchestrator and the inpainting adapter -/

theorem processed_add_failed (l : List ResultEntry) :
    (l.filter hasUrl).length + (l.filter hasError).length = l.length := by
  induction l with
  | nil => rfl
  | cons e rest ih =>
    cases e <;> simp [List.filter, hasUrl, hasError] <;> omega

/-- Claim C7 counterexample: a batch of three target images — regardless of
what the per-image pipeline would do — is rejected by `process_images` with
the HTTP 400 validation error, so no per-image results are returned for
images 1 and 3. -/
theorem process_images_three_targets_rejected :
    process_images (fun _ => .error "No matching face found")
      [⟨"img1.jpg"⟩, ⟨"img2.jpg"⟩, ⟨"img3.jpg"⟩] =
      .error (400, "Maximum 1 target image allowed") := rfl

/-- Claim C7 (amended): inside the per-target processing loop every image
contributes exactly one entry computed from its own pipeline outcome — a
stage failure for image `i` is caught and recorded as that image's error
entry while the surrounding images' entries are unaffected — and an
accepted batch reports these entries with `processed`/`failed` counts that
add up to the number of targets; but the loop only runs for batches passing
validation (at most 1 target): a batch of 3 targets is rejected with an
HTTP 400 validation error before any processing. -/
theorem process_images_per_image_isolation
    (pipeline : TargetImage → Except String String) (targets : List TargetImage) :
    (∀ (pre post : List TargetImage) (t : TargetImage) (e : String),
      pipeline t = .error e →
      processLoop pipeline (pre ++ t :: post) =
        processLoop pipeline pre ++
          ResultEntry.failure t.filename e :: processLoop pipeline post) ∧
    (processLoop pipeline targets).length = targets.length ∧
    ((processLoop pipeline targets).filter hasUrl).length +
      ((processLoop pipeline targets).filter hasError).length = targets.length ∧
    (1 < targets.length →
      process_images pipeline targets = .error (400, "Maximum 1 target image allowed")) ∧
    (targets.length ≤ 1 →
      process_images pipeline targets =
        .ok ⟨true, processLoop pipeline targets,
          ((processLoop pipeline targets).filter hasUrl).length,
          ((processLoop pipeline targets).filter hasError).length⟩) := by
  refine ⟨?_, ?_, ?_, ?_, ?_⟩
  · intro pre post t e he
    simp [processLoop, mkResultEntry, he]
  · simp [processLoop]
  · rw [processed_add_failed]
    simp [processLoop]
  · intro hgt
    unfold process_images
    rw [if_pos hgt]
  · intro hle
    unfold process_images
    rw [if_neg (by omega)]

/-- Claim C8: `process_images` enforces a maximum of one target image per
invocation — more than one target is rejected with the HTTP 400 validation
error before any pipeline stage runs (the response does not depend on the
pipeline at all), and a request with exactly one target is accepted. -/
theorem process_images_validation (pipeline : TargetImage → Except String String)
    (targets : List TargetImage) :
    (1 < targets.length →
      process_images pipeline targets = .error (400, "Maximum 1 target image allowed") ∧
      ∀ pipeline' : TargetImage → Except String String,
        process_images pipeline' targets = process_images pipeline targets) ∧
    (targets.length = 1 → ∃ b : BatchResult, process_images pipeline targets = .ok b) := by
  constructor
  · intro hgt
    constructor
    · unfold process_images
      rw [if_pos hgt]
    · intro pipeline'
      unfold process_images
      rw [if_pos hgt, if_pos hgt]
  · intro hone
    unfold process_images
    rw [if_neg (by omega)]
    exact ⟨_, rfl⟩

/-- Claim C9: after a successful inpainting subprocess (exit status 0),
exactly two candidate output filenames are probed in order — the
mask-suffixed name first, then the base image name — the first existing one
is used, and a missing output under both names is the distinct
`outputNotFound` error; a nonzero exit status is the distinct
`processFailed` error, reported regardless of the file system. -/
theorem resolveLamaOutput_probe_order (fileExists : String → Bool) (rc : Int) :
    (possibleOutputs "image").length = 2 ∧
    (possibleOutputs "image") = ["image_mask001.png", "image.png"] ∧
    (rc ≠ 0 → resolveLamaOutput rc fileExists = .error (.processFailed rc) ∧
      LamaError.processFailed rc ≠ LamaError.outputNotFound) ∧
    (fileExists "image_mask001.png" = true →
      resolveLamaOutput 0 fileExists = .ok "image_mask001.png") ∧
    (fileExists "image_mask001.png" = false → fileExists "image.png" = true →
      resolveLamaOutput 0 fileExists = .ok "image.png") ∧
    (fileExists "image_mask001.png" = false → fileExists "image.png" = false →
      resolveLamaOutput 0 fileExists = .error .outputNotFound) := by
  refine ⟨rfl, rfl, ?_, ?_, ?_, ?_⟩
  · intro hrc
    refine ⟨?_, by simp⟩
    unfold resolveLamaOutput
    rw [if_pos hrc]
  · intro h1
    unfold resolveLamaOutput
    rw [if_neg (by omega)]
    simp [possibleOutputs, List.find?, h1]
  · intro h1 h2
    unfold resolveLamaOutput
    rw [if_neg (by omega)]
    simp [possibleOutputs, List.find?, h1, h2]
  · intro h1 h2
    unfold resolveLamaOutput
    rw [if_neg (by omega)]
    simp [possibleOutputs, List.find?, h1, h2]

/-! ### Concrete evaluations (witnesses) -/

theorem overlapPercentage_demo_full : overlapPercentage faceDemo rasterFull = 100 := by
  have hc : overlapPixels faceDemo rasterFull = 25 := by decide
  unfold overlapPercentage
  rw [hc]
  norm_num [faceArea, faceDemo]

theorem overlapPercentage_demo_dot : overlapPercentage faceDemo rasterDot = 4 := by
  have hc : overlapPixels faceDemo rasterDot = 1 := by decide
  unfold overlapPercentage
  rw [hc]
  norm_num [faceArea, faceDemo]

/-- Witness for `select_best_mask_tier1_largest_area`: two fully overlapping
candidates of areas 50 and 100. -/
theorem select_best_mask_tier1_largest_area_witness :
    (∃ j, ∃ hj : j < masksT1.length, qualifiesT1 faceDemo masksT1[j]) ∧
    (∃ w, ∃ hw : w < masksT1.length,
      select_best_mask masksT1 faceDemo = .ok w ∧
      qualifiesT1 faceDemo masksT1[w] ∧
      (∀ j, ∀ hj : j < masksT1.length, qualifiesT1 faceDemo masksT1[j] →
        masksT1[j].area ≤ masksT1[w].area) ∧
      (∀ j, ∀ hj : j < masksT1.length, j < w → qualifiesT1 faceDemo masksT1[j] →
        masksT1[j].area < masksT1[w].area)) := by
  have hq : ∃ j, ∃ hj : j < masksT1.length, qualifiesT1 faceDemo masksT1[j] := by
    refine ⟨0, by simp [masksT1], ?_⟩
    show qualifiesT1 faceDemo ⟨50, some rasterFull⟩
    refine ⟨rasterFull, rfl, ?_⟩
    rw [overlapPercentage_demo_full]
    norm_num
  exact ⟨hq, select_best_mask_tier1_largest_area masksT1 faceDemo hq⟩

/-- Witness for `select_best_mask_tier2_center_fallback`: one candidate with
4% overlap whose raster covers the face-box center. -/
theorem select_best_mask_tier2_center_fallback_witness :
    (∀ j, ∀ hj : j < masksT2.length, ¬ qualifiesT1 faceDemo masksT2[j]) ∧
    (∃ j, ∃ hj : j < masksT2.length, centerHit faceDemo masksT2[j] = true) ∧
    (∃ w, ∃ hw : w < masksT2.length,
      select_best_mask masksT2 faceDemo = .ok w ∧
      centerHit faceDemo masksT2[w] = true ∧
      (∀ j, ∀ hj : j < masksT2.length, centerHit faceDemo masksT2[j] = true →
        masksT2[j].area ≤ masksT2[w].area) ∧
      (∀ j, ∀ hj : j < masksT2.length, j < w → centerHit faceDemo masksT2[j] = true →
        masksT2[j].area < masksT2[w].area)) := by
  have h1 : ∀ j, ∀ hj : j < masksT2.length, ¬ qualifiesT1 faceDemo masksT2[j] := by
    intro j hj
    have hj1 : j = 0 := by
      simp [masksT2] at hj
      omega
    subst hj1
    show ¬ qualifiesT1 faceDemo ⟨70, some rasterDot⟩
    rintro ⟨m, hm, hge⟩
    obtain rfl : rasterDot = m := by injection hm
    rw [overlapPercentage_demo_dot] at hge
    norm_num at hge
  have h2 : ∃ j, ∃ hj : j < masksT2.length, centerHit faceDemo masksT2[j] = true :=
    ⟨0, by simp [masksT2], by decide⟩
  exact ⟨h1, h2, select_best_mask_tier2_center_fallback masksT2 faceDemo h1 h2⟩

/-- Witness for `select_best_mask_degenerate_box`: a face box with
`right = left = 0`. -/
theorem select_best_mask_degenerate_box_witness :
    (faceDegenerate.right ≤ faceDegenerate.left ∨
      faceDegenerate.bottom ≤ faceDegenerate.top) ∧
    ((∀ m : Raster, overlapPercentage faceDegenerate m = 0) ∧
      tier1List faceDegenerate 0 masksT1 = [] ∧
      select_best_mask masksT1 faceDegenerate =
        fallbackSelect (tier2List faceDegenerate 0 masksT1)) := by
  have hdeg : faceDegenerate.right ≤ faceDegenerate.left ∨
      faceDegenerate.bottom ≤ faceDegenerate.top := Or.inl (by decide)
  exact ⟨hdeg, select_best_mask_degenerate_box masksT1 faceDegenerate hdeg⟩

/-- Witness for `select_best_mask_no_overlap_error`: the empty candidate
list fails with the "no overlapping mask" error. -/
theorem select_best_mask_no_overlap_error_witness :
    select_best_mask [] faceDemo = .error "No masks overlap with the detected face" ∧
    (∀ (pipeline : TargetImage → Except String String)
      (pre post : List TargetImage) (t : TargetImage),
      processLoop pipeline (pre ++ t :: post) =
        processLoop pipeline pre ++
          mkResultEntry t (pipeline t) :: processLoop pipeline post) :=
  select_best_mask_no_overlap_error [] faceDemo
    (fun j hj => absurd hj (by simp))
    (fun j hj => absurd hj (by simp))

/-- Witness for `find_matching_face_largest_query_face`: three reference
faces of areas 100, 400, 25 — the selected index maximizes the area. -/
theorem find_matching_face_largest_query_face_witness :
    1 < queryLocsDemo.length ∧
    (∃ hw : usedQueryIdx queryLocsDemo < queryLocsDemo.length,
      (∀ j, ∀ hj : j < queryLocsDemo.length,
        faceLocArea queryLocsDemo[j] ≤ faceLocArea queryLocsDemo[usedQueryIdx queryLocsDemo]) ∧
      (∀ j, ∀ hj : j < queryLocsDemo.length,
        faceLocArea queryLocsDemo[j] = faceLocArea queryLocsDemo[usedQueryIdx queryLocsDemo] →
        j ≤ usedQueryIdx queryLocsDemo) ∧
      find_matching_face targetLocsDemo queryLocsDemo distDemo =
        .ok (matchLoop (distDemo (usedQueryIdx queryLocsDemo)) 0 targetLocsDemo)) :=
  ⟨by simp [queryLocsDemo],
    find_matching_face_largest_query_face targetLocsDemo queryLocsDemo distDemo
      (by simp [queryLocsDemo])⟩

/-- Witness for `find_matching_face_first_match`: target face 1 is the first
within threshold (distance 0.5), although face 2 is closer (0.3). -/
theorem find_matching_face_first_match_witness :
    ([⟨0, 10, 10, 0⟩] : List FaceLoc) ≠ [] ∧
    find_matching_face targetLocsDemo [⟨0, 10, 10, 0⟩] distDemo =
      .ok (some ⟨10, 30, 30, 10, 1 / 2⟩) := by
  have hne : ([⟨0, 10, 10, 0⟩] : List FaceLoc) ≠ [] := by simp
  have hle : distDemo (usedQueryIdx [⟨0, 10, 10, 0⟩]) 1 ≤ matchThreshold := by
    norm_num [distDemo, usedQueryIdx, matchThreshold]
  have hnone : ∀ i, i < 1 → ¬ distDemo (usedQueryIdx [⟨0, 10, 10, 0⟩]) i ≤ matchThreshold := by
    intro i hi
    have hi0 : i = 0 := by omega
    subst hi0
    norm_num [distDemo, usedQueryIdx, matchThreshold]
  have happ := (find_matching_face_first_match targetLocsDemo [⟨0, 10, 10, 0⟩] distDemo hne).1
    1 (by simp [targetLocsDemo]) hle hnone
  refine ⟨hne, ?_⟩
  rw [happ]
  norm_num [targetLocsDemo, distDemo, usedQueryIdx]

/-- Witness for `find_matching_face_empty_cases`: no target faces gives a
no-match result; no query faces gives the error. -/
theorem find_matching_face_empty_cases_witness :
    find_matching_face [] [⟨0, 10, 10, 0⟩] distDemo = .ok none ∧
    find_matching_face targetLocsDemo [] distDemo =
      .error "No faces found in query image" :=
  ⟨(find_matching_face_empty_cases [⟨0, 10, 10, 0⟩] distDemo).1 (by simp),
   (find_matching_face_empty_cases [] distDemo).2 targetLocsDemo rfl⟩

/-- Witness for `process_images_per_image_isolation`: the loop isolates the
failing `img2.jpg`, a 3-target batch is rejected, a 1-target batch is
accepted. -/
theorem process_images_per_image_isolation_witness :
    pipelineDemo ⟨"img2.jpg"⟩ = .error "No matching face found" ∧
    processLoop pipelineDemo ([⟨"img1.jpg"⟩] ++ ⟨"img2.jpg"⟩ :: [⟨"img3.jpg"⟩]) =
      processLoop pipelineDemo [⟨"img1.jpg"⟩] ++
        ResultEntry.failure "img2.jpg" "No matching face found" ::
          processLoop pipelineDemo [⟨"img3.jpg"⟩] ∧
    process_images pipelineDemo [⟨"img1.jpg"⟩, ⟨"img2.jpg"⟩, ⟨"img3.jpg"⟩] =
      .error (400, "Maximum 1 target image allowed") ∧
    process_images pipelineDemo [⟨"img1.jpg"⟩] =
      .ok ⟨true, processLoop pipelineDemo [⟨"img1.jpg"⟩],
        ((processLoop pipelineDemo [⟨"img1.jpg"⟩]).filter hasUrl).length,
        ((processLoop pipelineDemo [⟨"img1.jpg"⟩]).filter hasError).length⟩ := by
  have hp2 : pipelineDemo ⟨"img2.jpg"⟩ = .error "No matching face found" := rfl
  refine ⟨hp2, ?_, ?_, ?_⟩
  · exact (process_images_per_image_isolation pipelineDemo []).1
      [⟨"img1.jpg"⟩] [⟨"img3.jpg"⟩] ⟨"img2.jpg"⟩ _ hp2
  · exact (process_images_per_image_isolation pipelineDemo
      [⟨"img1.jpg"⟩, ⟨"img2.jpg"⟩, ⟨"img3.jpg"⟩]).2.2.2.1 (by simp)
  · exact (process_images_per_image_isolation pipelineDemo
      [⟨"img1.jpg"⟩]).2.2.2.2 (by simp)

/-- Witness for `process_images_validation`: two targets rejected, one
target accepted. -/
theorem process_images_validation_witness :
    (process_images pipelineDemo [⟨"a.jpg"⟩, ⟨"b.jpg"⟩] =
        .error (400, "Maximum 1 target image allowed") ∧
      ∀ pipeline' : TargetImage → Except String String,
        process_images pipeline' [⟨"a.jpg"⟩, ⟨"b.jpg"⟩] =
          process_images pipelineDemo [⟨"a.jpg"⟩, ⟨"b.jpg"⟩]) ∧
    (∃ b : BatchResult, process_images pipelineDemo [⟨"a.jpg"⟩] = .ok b) :=
  ⟨(process_images_validation pipelineDemo [⟨"a.jpg"⟩, ⟨"b.jpg"⟩]).1 (by simp),
   (process_images_validation pipelineDemo [⟨"a.jpg"⟩]).2 rfl⟩

/-- Witness for `resolveLamaOutput_probe_order`: the four outcomes at
concrete exit codes and file systems. -/
theorem resolveLamaOutput_probe_order_witness :
    resolveLamaOutput 1 (fun _ => false) = .error (.processFailed 1) ∧
    resolveLamaOutput 0 (fun s => s == "image_mask001.png") = .ok "image_mask001.png" ∧
    resolveLamaOutput 0 (fun s => s == "image.png") = .ok "image.png" ∧
    resolveLamaOutput 0 (fun _ => false) = .error .outputNotFound :=
  ⟨((resolveLamaOutput_probe_order (fun _ => false) 1).2.2.1 (by norm_num)).1,
   (resolveLamaOutput_probe_order (fun s => s == "image_mask001.png") 0).2.2.2.1 rfl,
   (resolveLamaOutput_probe_order (fun s => s == "image.png") 0).2.2.2.2.1 rfl rfl,
   (resolveLamaOutput_probe_order (fun _ => false) 0).2.2.2.2.2 rfl rfl⟩

end PastImages
